import Mathlib

/-!
Shallow embedding of the conformance-reference engine in
lib/AST/ProtocolConformanceRef.cpp.

A ProtocolConformanceRef is a tagged union over an empty (invalid) state, a
concrete conformance record, an abstract conformance (type + protocol pair),
and a pack conformance.  The external collaborators (Type substitution, the
global conformance lookup service, the payload objects' own substitution and
witness tables, declared in other translation units) are modelled as opaque
function parameters gathered in the Externals structure; everything the
source file itself computes is translated directly.
-/

namespace SwiftConf

/-- A protocol declaration, identified by a key.  Only identity matters to
the translated file. -/
structure Proto where
  pid : Nat
deriving DecidableEq, Repr

/-- An associated-type declaration: it belongs to a protocol
(assocType->getProtocol()) and has a name (its identifier). -/
structure AssocId where
  proto : Proto
  aname : Nat
deriving DecidableEq, Repr

/-- The fragment of the Swift type system the conformance-reference file
inspects.  errorWith is ErrorType::get(originalType) (sugar for the plain
ErrorType), dependentMember is DependentMemberType, sugar stands for any
sugared type node that canonicalization strips. -/
inductive Ty where
  | errorTy : Ty
  | errorWith (orig : Ty) : Ty
  | dependentMember (base : Ty) (assoc : AssocId) : Ty
  | genericParam (depth index : Nat) : Ty
  | typeVariable (tvid : Nat) : Ty
  | unresolved : Ty
  | placeholder : Ty
  | archetype (aid : Nat) : Ty
  | opaqueArchetype (oid : Nat) : Ty
  | existentialTy (p : Proto) : Ty
  | nominal (nid : Nat) : Ty
  | sugar (t : Ty) : Ty
deriving DecidableEq, Repr

namespace Ty

/-- Type::getCanonicalType(): strip sugar, erase an error's original type,
canonicalize the base of a dependent member type.  The other nodes of the
modelled fragment are canonical as they stand. -/
def canonical : Ty → Ty
  | .sugar t => t.canonical
  | .errorWith _ => .errorTy
  | .dependentMember b a => .dependentMember b.canonical a
  | t => t

/-- Type::isCanonical(): the type equals its canonical form, computed
structurally. -/
def isCanonicalTy : Ty → Bool
  | .sugar _ => false
  | .errorWith _ => false
  | .dependentMember b _ => b.isCanonicalTy
  | _ => true

/-- getDesugaredType() at the head, as used by getAs/is casts. -/
def stripSugarHead : Ty → Ty
  | .sugar t => t.stripSugarHead
  | t => t

/-- getAs of OpaqueTypeArchetypeType succeeds. -/
def isOpaqueArchetype (t : Ty) : Bool :=
  match t.stripSugarHead with
  | .opaqueArchetype _ => true
  | _ => false

/-- getAs of ArchetypeType succeeds (opaque archetypes included). -/
def isArchetypeTy (t : Ty) : Bool :=
  match t.stripSugarHead with
  | .archetype _ => true
  | .opaqueArchetype _ => true
  | _ => false

/-- Type::isExistentialType(). -/
def isExistential (t : Ty) : Bool :=
  match t.stripSugarHead with
  | .existentialTy _ => true
  | _ => false

/-- TypeBase::is of ErrorType, which looks at the canonical type. -/
def isErrorType (t : Ty) : Bool :=
  match t.canonical with
  | .errorTy => true
  | _ => false

/-- TypeBase::is of UnresolvedType. -/
def isUnresolvedTy (t : Ty) : Bool :=
  match t.stripSugarHead with
  | .unresolved => true
  | _ => false

/-- TypeBase::is of PlaceholderType. -/
def isPlaceholderTy (t : Ty) : Bool :=
  match t.stripSugarHead with
  | .placeholder => true
  | _ => false

/-- Type::isTypeParameter(): a generic parameter or a dependent member
rooted in one. -/
def isTypeParameter : Ty → Bool
  | .genericParam _ _ => true
  | .dependentMember b _ => b.isTypeParameter
  | .sugar t => t.isTypeParameter
  | _ => false

/-- Type::isTypeVariableOrMember(): a type variable or a dependent member
rooted in one. -/
def isTypeVariableOrMember : Ty → Bool
  | .typeVariable _ => true
  | .dependentMember b _ => b.isTypeVariableOrMember
  | .sugar t => t.isTypeVariableOrMember
  | _ => false

end Ty

/-- AbstractConformance payload: a type paired with the protocol it
abstractly conforms to. -/
structure AbstractConformance where
  ty : Ty
  proto : Proto
deriving DecidableEq, Repr

/-- A BuiltinProtocolConformance root, carrying its isMissing flag. -/
structure BuiltinConf where
  bid : Nat
  missing : Bool
deriving DecidableEq, Repr

/-- The root conformance of a concrete record, as classified by
forEachMissingConformance / forEachIsolatedConformance: a normal
conformance (with its isIsolated flag), a builtin conformance (with its
isMissing flag), or another root kind. -/
inductive RootKind where
  | normal (isolated : Bool) : RootKind
  | builtin (b : BuiltinConf) : RootKind
  | otherRoot : RootKind
deriving DecidableEq, Repr

mutual

/-- ProtocolConformanceRef: the tagged pointer union.  invalid is the empty
union; the other variants hold their payload record. -/
inductive ConformanceRef where
  | invalid : ConformanceRef
  | concrete (c : ProtocolConformance) : ConformanceRef
  | abstract (a : AbstractConformance) : ConformanceRef
  | pack (p : PackConformance) : ConformanceRef

/-- A concrete ProtocolConformance record: conforming type, protocol, the
conformances stored in its substitution map (subMap.getConformances()),
and its root conformance. -/
inductive ProtocolConformance where
  | mk (ty : Ty) (proto : Proto) (subConfs : ConfList) (root : RootKind)
      : ProtocolConformance

/-- A PackConformance record: pack type, protocol, pattern conformances,
and whether the pack conformance is itself invalid
(PackConformance::isInvalid(), defined outside this file and therefore
carried as an attribute of the payload). -/
inductive PackConformance where
  | mk (ty : Ty) (proto : Proto) (patterns : ConfList) (inv : Bool)
      : PackConformance

/-- A list of conformance references (substitution-map conformances,
pack pattern conformances). -/
inductive ConfList where
  | nil : ConfList
  | cons (c : ConformanceRef) (rest : ConfList) : ConfList

end

deriving instance DecidableEq for ConformanceRef, ProtocolConformance,
  PackConformance, ConfList

namespace ProtocolConformance

def ty : ProtocolConformance → Ty
  | .mk t _ _ _ => t

def proto : ProtocolConformance → Proto
  | .mk _ p _ _ => p

def subConfs : ProtocolConformance → ConfList
  | .mk _ _ s _ => s

def root : ProtocolConformance → RootKind
  | .mk _ _ _ r => r

end ProtocolConformance

namespace PackConformance

def ty : PackConformance → Ty
  | .mk t _ _ _ => t

def proto : PackConformance → Proto
  | .mk _ p _ _ => p

def patterns : PackConformance → ConfList
  | .mk _ _ ps _ => ps

/-- PackConformance::isInvalid(), an attribute of the payload (its
definition lives outside this file). -/
def inv : PackConformance → Bool
  | .mk _ _ _ i => i

end PackConformance

namespace ConformanceRef

/-- ProtocolConformanceRef::isConcrete(). -/
def isConcrete : ConformanceRef → Bool
  | .concrete _ => true
  | _ => false

/-- ProtocolConformanceRef::isPack(). -/
def isPack : ConformanceRef → Bool
  | .pack _ => true
  | _ => false

/-- ProtocolConformanceRef::isAbstract(). -/
def isAbstract : ConformanceRef → Bool
  | .abstract _ => true
  | _ => false

/-- ProtocolConformanceRef::isInvalid(): the empty union is invalid, and so
is a pack reference whose pack conformance is itself invalid. -/
def isInvalid : ConformanceRef → Bool
  | .invalid => true
  | .pack p => p.inv
  | _ => false

/-- ProtocolConformanceRef::getType(): the null type (none) when invalid,
otherwise the active payload's conforming type. -/
def getType : ConformanceRef → Option Ty
  | c =>
    if c.isInvalid then none
    else
      match c with
      | .concrete con => some con.ty
      | .pack p => some p.ty
      | .abstract a => some a.ty
      | .invalid => none

/-- ProtocolConformanceRef::getProtocol().  The invalid reference has no
protocol: the source routes it to getAbstract() on the empty union, a
contract violation, modelled as none. -/
def getProtocol : ConformanceRef → Option Proto
  | .concrete con => some con.proto
  | .pack p => some p.proto
  | .abstract a => some a.proto
  | .invalid => none

end ConformanceRef

/-- ConcreteDeclRef: either the empty reference, a requirement declaration
paired with the protocol substitutions built from (proto, type, self
conformance), or a witness from a concrete record's witness table. -/
inductive ConcreteDeclRef where
  | emptyRef : ConcreteDeclRef
  | viaProtocolSubs (req : Nat) (proto : Proto) (ty : Ty)
      (conf : ConformanceRef) : ConcreteDeclRef
  | concreteWitness (w : Nat) : ConcreteDeclRef
deriving DecidableEq

/-- The external collaborators the source file calls into, declared in
other translation units: the in-flight substitution (Type::subst through
it, its shouldSubstituteOpaqueArchetypes flag, its local lookupConformance),
the global lookupConformance service, the payload objects' own subst /
witness operations, and the protocol declaration's member lookups. -/
structure Externals where
  typeSubst : Ty → Ty
  substOpaqueArchetypes : Bool
  ifsLookup : Ty → Ty → Proto → Nat → ConformanceRef
  glookup : Ty → Proto → Bool → ConformanceRef
  concreteSubst : ProtocolConformance → ConformanceRef
  packSubst : PackConformance → ConformanceRef
  packTypeWitness : PackConformance → AssocId → Ty
  concreteTypeWitness : ProtocolConformance → AssocId → Option Ty
  archNested : Ty → AssocId → Ty
  protoAssoc : Proto → Nat → Option AssocId
  protoSingleRequirement : Proto → Nat → Option Nat
  concreteWitnessDeclRef : ProtocolConformance → Nat → ConcreteDeclRef
  assocViaProtoSubs : ConformanceRef → Ty → Ty → Ty

namespace ConformanceRef

/-- ProtocolConformanceRef::subst(origType, IFS).  An invalid reference is
returned unchanged; concrete and pack references delegate to their
payload's substitution; an abstract reference over an opaque archetype
stays abstract (with its type substituted) unless the substitution
substitutes opaque archetypes; otherwise an existential substituted type
is looked up globally with allowMissing, degrading to the invalid
reference when nothing is found, and any other substituted type goes
through the in-flight substitution's local conformance lookup at level 0. -/
def subst (env : Externals) (c : ConformanceRef) (origType : Ty) :
    ConformanceRef :=
  if c.isInvalid then c
  else
    match c with
    | .concrete con => env.concreteSubst con
    | .pack p => env.packSubst p
    | .abstract a =>
      let proto := a.proto
      if origType.isOpaqueArchetype && !env.substOpaqueArchetypes then
        .abstract ⟨env.typeSubst origType, proto⟩
      else
        let substType := env.typeSubst origType
        if substType.isExistential then
          let optConformance := env.glookup substType proto true
          if optConformance.isInvalid then .invalid else optConformance
        else
          env.ifsLookup origType.canonical substType proto 0
    | .invalid => .invalid

/-- ProtocolConformanceRef::getTypeWitness(conformingType, assocType).
A pack reference asserts the conforming type matches the pack's type
(canonical-type equality) and delegates; an invalid reference returns the
dependent-member placeholder rooted at an error type; a concrete reference
asks the record and falls back to the same placeholder when the witness is
absent or an error type; an abstract reference projects the archetype's
nested type, or a dependent member type under the type-shape precondition.
Assertion failures are modelled as none. -/
def getTypeWitness (env : Externals) (c : ConformanceRef)
    (conformingType : Ty) (assocType : AssocId) : Option Ty :=
  match c with
  | .pack p =>
    if conformingType.canonical = p.ty.canonical then
      some (env.packTypeWitness p assocType)
    else none
  | _ =>
    let failed := Ty.dependentMember (Ty.errorWith conformingType) assocType
    if c.isInvalid then some failed
    else
      match c with
      | .concrete con =>
        if assocType.proto = con.proto then
          match env.concreteTypeWitness con assocType with
          | none => some failed
          | some w => if w.isErrorType then some failed else some w
        else none
      | .abstract a =>
        if assocType.proto = a.proto then
          if conformingType.isArchetypeTy then
            some (env.archNested conformingType.stripSugarHead assocType)
          else if conformingType.isTypeParameter
              || conformingType.isTypeVariableOrMember
              || conformingType.isUnresolvedTy
              || conformingType.isPlaceholderTy then
            some (Ty.dependentMember conformingType assocType)
          else none
        else none
      | _ => none

/-- ProtocolConformanceRef::getTypeWitnessByName(type, name).  The source
asserts the reference is not invalid (modelled as none), then resolves the
named associated type on the protocol, returning a plain error type when
the protocol has no such member, and delegates to getTypeWitness. -/
def getTypeWitnessByName (env : Externals) (c : ConformanceRef)
    (type : Ty) (name : Nat) : Option Ty :=
  if c.isInvalid then none
  else
    match c.getProtocol with
    | none => none
    | some proto =>
      match env.protoAssoc proto name with
      | none => some Ty.errorTy
      | some assocType => getTypeWitness env c type assocType

/-- ProtocolConformanceRef::getWitnessByName(type, name).  Reads the
protocol (the invalid reference has none and crashes, modelled as none),
finds the single named requirement (returning the empty declaration
reference when absent), and returns either the requirement over protocol
substitutions (non-concrete case) or the concrete record's witness. -/
def getWitnessByName (env : Externals) (c : ConformanceRef)
    (type : Ty) (name : Nat) : Option ConcreteDeclRef :=
  match c.getProtocol with
  | none => none
  | some proto =>
    match env.protoSingleRequirement proto name with
    | none => some .emptyRef
    | some req =>
      match c with
      | .concrete con => some (env.concreteWitnessDeclRef con req)
      | _ => some (.viaProtocolSubs req proto type c)

/-- ProtocolConformanceRef::getAssociatedType(conformingType, assocType).
The invalid reference returns a plain error type; otherwise the associated
type expression is substituted through the protocol substitution map built
from (protocol, conformingType, self conformance) — external machinery. -/
def getAssociatedType (env : Externals) (c : ConformanceRef)
    (conformingType assocType : Ty) : Ty :=
  if c.isInvalid then Ty.errorTy
  else env.assocViaProtoSubs c conformingType assocType

end ConformanceRef

mutual

/-- ProtocolConformanceRef::getCanonicalConformanceRef().  An invalid
reference (the empty union or a pack whose pack conformance is invalid) is
returned unchanged; a pack or concrete reference wraps its payload's
canonical conformance; an abstract reference canonicalizes its type and
keeps its protocol. -/
def ConformanceRef.getCanonicalConformanceRef :
    ConformanceRef → ConformanceRef
  | .invalid => .invalid
  | .pack (.mk t pr pats i) =>
    if i then .pack (.mk t pr pats i)
    else .pack (PackConformance.getCanonicalConformance (.mk t pr pats i))
  | .abstract a => .abstract ⟨a.ty.canonical, a.proto⟩
  | .concrete con =>
    .concrete (ProtocolConformance.getCanonicalConformance con)

/-- Modelled from the spec: PackConformance::getCanonicalConformance is
declared outside this file; per the spec's canonicalization contract it is
the structural recursion canonicalizing the pack type and every pattern
conformance. -/
def PackConformance.getCanonicalConformance :
    PackConformance → PackConformance
  | .mk t pr pats i =>
    .mk t.canonical pr (ConfList.canonList pats) i

/-- Modelled from the spec: ProtocolConformance::getCanonicalConformance is
declared outside this file; per the spec's canonicalization contract it is
the structural recursion canonicalizing the conforming type and every
conformance of the substitution map. -/
def ProtocolConformance.getCanonicalConformance :
    ProtocolConformance → ProtocolConformance
  | .mk t pr subs root =>
    .mk t.canonical pr (ConfList.canonList subs) root

/-- Canonicalize every conformance reference of a list. -/
def ConfList.canonList : ConfList → ConfList
  | .nil => .nil
  | .cons c rest =>
    .cons c.getCanonicalConformanceRef (ConfList.canonList rest)

end

mutual

/-- ProtocolConformanceRef::isCanonical().  An invalid reference is
trivially canonical; pack and concrete references delegate to their
payload; an abstract reference asks its type. -/
def ConformanceRef.isCanonicalRef : ConformanceRef → Bool
  | .invalid => true
  | .pack (.mk t pr pats i) =>
    if i then true else PackConformance.isCanonicalPack (.mk t pr pats i)
  | .abstract a => a.ty.isCanonicalTy
  | .concrete con => ProtocolConformance.isCanonicalConf con

/-- Modelled from the spec: PackConformance::isCanonical, the structural
counterpart of its canonicalization. -/
def PackConformance.isCanonicalPack : PackConformance → Bool
  | .mk t _ pats _ => t.isCanonicalTy && ConfList.allCanon pats

/-- Modelled from the spec: ProtocolConformance::isCanonical, the
structural counterpart of its canonicalization. -/
def ProtocolConformance.isCanonicalConf : ProtocolConformance → Bool
  | .mk t _ subs _ => t.isCanonicalTy && ConfList.allCanon subs

/-- Every conformance reference of the list is canonical. -/
def ConfList.allCanon : ConfList → Bool
  | .nil => true
  | .cons c rest => c.isCanonicalRef && ConfList.allCanon rest

end

mutual

/-- ProtocolConformanceRef::forEachMissingConformance(fn).  Invalid and
abstract references answer false immediately; a pack walks its pattern
conformances; a concrete reference first tests whether its root
conformance is a builtin conformance marked missing (calling the visitor
on it), then walks the conformances of its substitution map. -/
def ConformanceRef.forEachMissingConformance (fn : BuiltinConf → Bool) :
    ConformanceRef → Bool
  | .invalid => false
  | .abstract _ => false
  | .pack (.mk _ _ pats i) =>
    if i then false else ConfList.missList fn pats
  | .concrete (.mk _ _ subs root) =>
    (match root with
     | .builtin b => b.missing && fn b
     | _ => false) || ConfList.missList fn subs

/-- Short-circuiting disjunction of forEachMissingConformance over a
conformance list. -/
def ConfList.missList (fn : BuiltinConf → Bool) : ConfList → Bool
  | .nil => false
  | .cons c rest =>
    c.forEachMissingConformance fn || ConfList.missList fn rest

end

/-- ProtocolConformanceRef::hasMissingConformance():
forEachMissingConformance with the constant-true visitor. -/
def ConformanceRef.hasMissingConformance (c : ConformanceRef) : Bool :=
  c.forEachMissingConformance fun _ => true

mutual

/-- Instrumented forEachMissingConformance: same traversal, but also
collects the missing builtin conformances the visitor is invoked on. -/
def ConformanceRef.missTrace (fn : BuiltinConf → Bool) :
    ConformanceRef → Bool × List BuiltinConf
  | .invalid => (false, [])
  | .abstract _ => (false, [])
  | .pack (.mk _ _ pats i) =>
    if i then (false, []) else ConfList.missTraceList fn pats
  | .concrete (.mk _ _ subs root) =>
    match root with
    | .builtin b =>
      if b.missing then
        if fn b then (true, [b])
        else
          let r := ConfList.missTraceList fn subs
          (r.1, b :: r.2)
      else ConfList.missTraceList fn subs
    | _ => ConfList.missTraceList fn subs

/-- Instrumented traversal over a conformance list. -/
def ConfList.missTraceList (fn : BuiltinConf → Bool) :
    ConfList → Bool × List BuiltinConf
  | .nil => (false, [])
  | .cons c rest =>
    let r := c.missTrace fn
    if r.1 then r
    else
      let r2 := ConfList.missTraceList fn rest
      (r2.1, r.2 ++ r2.2)

end

/-- Membership of a conformance reference in a conformance list. -/
def ConfList.Memb (c : ConformanceRef) : ConfList → Prop
  | .nil => False
  | .cons d rest => c = d ∨ ConfList.Memb c rest

theorem Ty.canonical_isCanonical (t : Ty) :
    t.canonical.isCanonicalTy = true := by
  induction t <;> simp [Ty.canonical, Ty.isCanonicalTy, *]

theorem Ty.canonical_of_isCanonical (t : Ty) (h : t.isCanonicalTy = true) :
    t.canonical = t := by
  induction t <;> simp_all [Ty.canonical, Ty.isCanonicalTy]

mutual

theorem ConformanceRef.canonRef_isCanonical :
    (c : ConformanceRef) →
      c.getCanonicalConformanceRef.isCanonicalRef = true
  | .invalid => rfl
  | .pack (.mk t pr pats i) => by
    cases i <;>
      simp [ConformanceRef.getCanonicalConformanceRef,
        ConformanceRef.isCanonicalRef,
        PackConformance.getCanonicalConformance,
        PackConformance.isCanonicalPack, Ty.canonical_isCanonical,
        ConfList.canonList_allCanon pats]
  | .abstract a => by
    simp [ConformanceRef.getCanonicalConformanceRef,
      ConformanceRef.isCanonicalRef, Ty.canonical_isCanonical]
  | .concrete (.mk t pr subs root) => by
    simp [ConformanceRef.getCanonicalConformanceRef,
      ConformanceRef.isCanonicalRef,
      ProtocolConformance.getCanonicalConformance,
      ProtocolConformance.isCanonicalConf, Ty.canonical_isCanonical,
      ConfList.canonList_allCanon subs]

theorem ConfList.canonList_allCanon :
    (l : ConfList) → (ConfList.canonList l).allCanon = true
  | .nil => rfl
  | .cons c rest => by
    simp [ConfList.canonList, ConfList.allCanon,
      ConformanceRef.canonRef_isCanonical c,
      ConfList.canonList_allCanon rest]

end

mutual

theorem ConformanceRef.canonRef_of_isCanonical :
    (c : ConformanceRef) → c.isCanonicalRef = true →
      c.getCanonicalConformanceRef = c
  | .invalid, _ => rfl
  | .pack (.mk t pr pats i), h => by
    cases i with
    | true => simp [ConformanceRef.getCanonicalConformanceRef]
    | false =>
      simp [ConformanceRef.isCanonicalRef,
        PackConformance.isCanonicalPack] at h
      simp [ConformanceRef.getCanonicalConformanceRef,
        PackConformance.getCanonicalConformance,
        Ty.canonical_of_isCanonical t h.1,
        ConfList.canonList_of_allCanon pats h.2]
  | .abstract a, h => by
    simp [ConformanceRef.isCanonicalRef] at h
    simp [ConformanceRef.getCanonicalConformanceRef,
      Ty.canonical_of_isCanonical a.ty h]
  | .concrete (.mk t pr subs root), h => by
    simp [ConformanceRef.isCanonicalRef,
      ProtocolConformance.isCanonicalConf] at h
    simp [ConformanceRef.getCanonicalConformanceRef,
      ProtocolConformance.getCanonicalConformance,
      Ty.canonical_of_isCanonical t h.1,
      ConfList.canonList_of_allCanon subs h.2]

theorem ConfList.canonList_of_allCanon :
    (l : ConfList) → l.allCanon = true → ConfList.canonList l = l
  | .nil, _ => rfl
  | .cons c rest, h => by
    simp [ConfList.allCanon] at h
    simp [ConfList.canonList,
      ConformanceRef.canonRef_of_isCanonical c h.1,
      ConfList.canonList_of_allCanon rest h.2]

end

mutual

theorem ConformanceRef.missTrace_fst (fn : BuiltinConf → Bool) :
    (c : ConformanceRef) →
      c.forEachMissingConformance fn = (c.missTrace fn).1
  | .invalid => rfl
  | .abstract _ => rfl
  | .pack (.mk t pr pats i) => by
    cases i <;>
      simp [ConformanceRef.forEachMissingConformance,
        ConformanceRef.missTrace, ConfList.missTraceList_fst fn pats]
  | .concrete (.mk t pr subs root) => by
    cases root with
    | builtin b =>
      cases hb : b.missing <;> cases hf : fn b <;>
        simp [ConformanceRef.forEachMissingConformance,
          ConformanceRef.missTrace, hb, hf,
          ConfList.missTraceList_fst fn subs]
    | normal iso =>
      simp [ConformanceRef.forEachMissingConformance,
        ConformanceRef.missTrace, ConfList.missTraceList_fst fn subs]
    | otherRoot =>
      simp [ConformanceRef.forEachMissingConformance,
        ConformanceRef.missTrace, ConfList.missTraceList_fst fn subs]

theorem ConfList.missTraceList_fst (fn : BuiltinConf → Bool) :
    (l : ConfList) → ConfList.missList fn l = (ConfList.missTraceList fn l).1
  | .nil => rfl
  | .cons c rest => by
    cases h1 : (c.missTrace fn).1 <;>
      simp [ConfList.missList, ConfList.missTraceList, h1,
        ConformanceRef.missTrace_fst fn c,
        ConfList.missTraceList_fst fn rest]

end

mutual

theorem ConformanceRef.missTrace_fst_visits (fn : BuiltinConf → Bool) :
    (c : ConformanceRef) → (c.missTrace fn).1 = true →
      (c.missTrace fn).2 ≠ []
  | .pack (.mk t pr pats i), h => by
    cases i with
    | true => simp [ConformanceRef.missTrace] at h
    | false =>
      simp only [ConformanceRef.missTrace, Bool.false_eq_true,
        if_false] at h ⊢
      exact ConfList.missTraceList_fst_visits fn pats h
  | .concrete (.mk t pr subs root), h => by
    cases root with
    | builtin b =>
      cases hb : b.missing <;> cases hf : fn b <;>
        simp_all [ConformanceRef.missTrace] <;>
        exact ConfList.missTraceList_fst_visits fn subs h
    | normal iso =>
      simp only [ConformanceRef.missTrace] at h ⊢
      exact ConfList.missTraceList_fst_visits fn subs h
    | otherRoot =>
      simp only [ConformanceRef.missTrace] at h ⊢
      exact ConfList.missTraceList_fst_visits fn subs h

theorem ConfList.missTraceList_fst_visits (fn : BuiltinConf → Bool) :
    (l : ConfList) → (ConfList.missTraceList fn l).1 = true →
      (ConfList.missTraceList fn l).2 ≠ []
  | .cons c rest, h => by
    cases h1 : (c.missTrace fn).1 with
    | true =>
      simp only [ConfList.missTraceList, h1, if_true]
      exact ConformanceRef.missTrace_fst_visits fn c h1
    | false =>
      simp only [ConfList.missTraceList, h1, Bool.false_eq_true,
        if_false] at h ⊢
      have h2 := ConfList.missTraceList_fst_visits fn rest h
      simp [h2]

end

mutual

theorem ConformanceRef.hasMissing_iff_visits (fn : BuiltinConf → Bool) :
    (c : ConformanceRef) →
      (c.hasMissingConformance = true ↔ (c.missTrace fn).2 ≠ [])
  | .invalid => by
    simp [ConformanceRef.hasMissingConformance,
      ConformanceRef.forEachMissingConformance, ConformanceRef.missTrace]
  | .abstract _ => by
    simp [ConformanceRef.hasMissingConformance,
      ConformanceRef.forEachMissingConformance, ConformanceRef.missTrace]
  | .pack (.mk t pr pats i) => by
    cases i with
    | false =>
      simpa [ConformanceRef.hasMissingConformance,
        ConformanceRef.forEachMissingConformance,
        ConformanceRef.missTrace] using
        ConfList.hasMissingList_iff_visits fn pats
    | true =>
      simp [ConformanceRef.hasMissingConformance,
        ConformanceRef.forEachMissingConformance,
        ConformanceRef.missTrace]
  | .concrete (.mk t pr subs root) => by
    cases root with
    | builtin b =>
      cases hb : b.missing with
      | true =>
        cases hf : fn b <;>
          simp [ConformanceRef.hasMissingConformance,
            ConformanceRef.forEachMissingConformance,
            ConformanceRef.missTrace, hb, hf]
      | false =>
        simpa [ConformanceRef.hasMissingConformance,
          ConformanceRef.forEachMissingConformance,
          ConformanceRef.missTrace, hb] using
          ConfList.hasMissingList_iff_visits fn subs
    | normal iso =>
      simpa [ConformanceRef.hasMissingConformance,
        ConformanceRef.forEachMissingConformance,
        ConformanceRef.missTrace] using
        ConfList.hasMissingList_iff_visits fn subs
    | otherRoot =>
      simpa [ConformanceRef.hasMissingConformance,
        ConformanceRef.forEachMissingConformance,
        ConformanceRef.missTrace] using
        ConfList.hasMissingList_iff_visits fn subs

theorem ConfList.hasMissingList_iff_visits (fn : BuiltinConf → Bool) :
    (l : ConfList) →
      (ConfList.missList (fun _ => true) l = true ↔
        (ConfList.missTraceList fn l).2 ≠ [])
  | .nil => by simp [ConfList.missList, ConfList.missTraceList]
  | .cons c rest => by
    have ihc := ConformanceRef.hasMissing_iff_visits fn c
    have ihr := ConfList.hasMissingList_iff_visits fn rest
    cases h1 : (c.missTrace fn).1 with
    | true =>
      have hv := ConformanceRef.missTrace_fst_visits fn c h1
      have hc : c.hasMissingConformance = true := ihc.mpr hv
      simp only [ConfList.missList, ConfList.missTraceList, h1, if_true]
      simp [ConformanceRef.hasMissingConformance] at hc
      simp [hc, hv]
    | false =>
      simp only [ConfList.missList, ConfList.missTraceList, h1,
        Bool.false_eq_true, if_false]
      simp only [ConformanceRef.hasMissingConformance] at ihc
      rw [Bool.or_eq_true, ihc, ihr]
      simp only [ne_eq, List.append_eq_nil]
      tauto

end

theorem ConfList.missList_of_memb (fn : BuiltinConf → Bool) :
    (l : ConfList) → (d : ConformanceRef) → ConfList.Memb d l →
      d.forEachMissingConformance fn = true → ConfList.missList fn l = true
  | .cons c rest, d, hm, hd => by
    cases hm with
    | inl he =>
      subst he
      simp [ConfList.missList, hd]
    | inr hm' =>
      simp [ConfList.missList,
        ConfList.missList_of_memb fn rest d hm' hd]

/-- A concrete instantiation of the external collaborators, used to
evaluate the theorems on closed inputs: the identity type substitution,
a lookup service that finds nothing, and payload operations returning
fixed values. -/
def trivialExt : Externals where
  typeSubst := fun t => t
  substOpaqueArchetypes := false
  ifsLookup := fun _ _ _ _ => .invalid
  glookup := fun _ _ _ => .invalid
  concreteSubst := fun _ => .invalid
  packSubst := fun _ => .invalid
  packTypeWitness := fun _ _ => .errorTy
  concreteTypeWitness := fun _ _ => none
  archNested := fun _ _ => .errorTy
  protoAssoc := fun _ _ => none
  protoSingleRequirement := fun _ _ => none
  concreteWitnessDeclRef := fun _ _ => .emptyRef
  assocViaProtoSubs := fun _ _ _ => .errorTy

/-- C1 counterexample: getTypeWitnessByName invoked on the Invalid
reference hits the assertion at the top of the function
(assert(!isInvalid()), ProtocolConformanceRef.cpp line 153) instead of
returning an error-shaped result; the assertion failure is modelled as
none. -/
theorem getTypeWitnessByName_invalid_asserts :
    ConformanceRef.getTypeWitnessByName trivialExt ConformanceRef.invalid
      (Ty.nominal 0) 0 = none := rfl

/-- C1 (amended): getTypeWitness on the Invalid reference returns the
dependent-member-on-error placeholder and getAssociatedType returns the
error type, without failing an assertion; but the name-based queries do
not share this guarantee: getTypeWitnessByName asserts the reference is
not invalid, and getWitnessByName reads the protocol of the empty
reference (modelled as none in both cases). -/
theorem invalid_query_surface (env : Externals) (t u : Ty)
    (assocType : AssocId) (nm : Nat) :
    ConformanceRef.getTypeWitness env ConformanceRef.invalid t assocType
      = some (Ty.dependentMember (Ty.errorWith t) assocType)
    ∧ ConformanceRef.getAssociatedType env ConformanceRef.invalid t u
      = Ty.errorTy
    ∧ ConformanceRef.getTypeWitnessByName env ConformanceRef.invalid t nm
      = none
    ∧ ConformanceRef.getWitnessByName env ConformanceRef.invalid t nm
      = none :=
  ⟨rfl, rfl, rfl, rfl⟩

/-- C2: substitution absorbs the invalid state: applying subst to any
reference for which isInvalid holds (the empty union, or a pack whose
pack conformance is invalid) returns the very same reference, for every
original type and every substitution context. -/
theorem subst_invalid_absorption (env : Externals) (c : ConformanceRef)
    (origType : Ty) (h : c.isInvalid = true) :
    ConformanceRef.subst env c origType = c := by
  simp [ConformanceRef.subst, h]

/-- C2 witness: the invalid reference is returned unchanged by a concrete
substitution. -/
theorem subst_invalid_absorption_checked :
    ConformanceRef.subst trivialExt ConformanceRef.invalid Ty.unresolved
      = ConformanceRef.invalid :=
  subst_invalid_absorption trivialExt ConformanceRef.invalid Ty.unresolved
    rfl

/-- C3: substituting an abstract reference whose substituted type is an
existential performs the global conformance lookup with allowMissing
enabled, and degrades to the Invalid reference exactly when that lookup
returns no conformance.  The guard hypothesis records that the opaque
archetype early-return is not taken (in the source, an original opaque
archetype never substitutes to an existential when opaque archetypes are
not being substituted, so the guard always holds there). -/
theorem subst_abstract_existential_lookup (env : Externals)
    (a : AbstractConformance) (origType : Ty)
    (hguard : origType.isOpaqueArchetype = true →
      env.substOpaqueArchetypes = true)
    (hex : (env.typeSubst origType).isExistential = true) :
    ConformanceRef.subst env (ConformanceRef.abstract a) origType =
      if (env.glookup (env.typeSubst origType) a.proto true).isInvalid
      then ConformanceRef.invalid
      else env.glookup (env.typeSubst origType) a.proto true := by
  have hcond :
      (origType.isOpaqueArchetype && !env.substOpaqueArchetypes) = false := by
    cases hop : origType.isOpaqueArchetype
    · simp
    · simp [hguard hop]
  simp [ConformanceRef.subst, ConformanceRef.isInvalid, hcond, hex]

/-- C3 witness: substituting an abstract self-conformance of an
existential under a lookup service that finds nothing yields the Invalid
reference. -/
theorem subst_abstract_existential_lookup_checked :
    ConformanceRef.subst trivialExt
      (ConformanceRef.abstract ⟨Ty.existentialTy ⟨0⟩, ⟨0⟩⟩)
      (Ty.existentialTy ⟨0⟩) = ConformanceRef.invalid := by
  have h := subst_abstract_existential_lookup trivialExt
    ⟨Ty.existentialTy ⟨0⟩, ⟨0⟩⟩ (Ty.existentialTy ⟨0⟩)
    (by decide) (by decide)
  rw [h]
  decide

/-- C4: substituting an abstract reference whose original type is an
opaque archetype, in a context that does not substitute opaque
archetypes, keeps the reference abstract over the substituted type with
the same protocol.  The conclusion does not mention either lookup
capability of the context, so no conformance lookup takes part in the
result. -/
theorem subst_abstract_opaque_lazy (env : Externals)
    (a : AbstractConformance) (origType : Ty)
    (hop : origType.isOpaqueArchetype = true)
    (hflag : env.substOpaqueArchetypes = false) :
    ConformanceRef.subst env (ConformanceRef.abstract a) origType =
      ConformanceRef.abstract ⟨env.typeSubst origType, a.proto⟩ := by
  simp [ConformanceRef.subst, ConformanceRef.isInvalid, hop, hflag]

/-- C4 witness: an abstract reference over an opaque archetype stays
abstract under the identity substitution. -/
theorem subst_abstract_opaque_lazy_checked :
    ConformanceRef.subst trivialExt
      (ConformanceRef.abstract ⟨Ty.genericParam 0 0, ⟨1⟩⟩)
      (Ty.opaqueArchetype 7)
      = ConformanceRef.abstract ⟨Ty.opaqueArchetype 7, ⟨1⟩⟩ :=
  subst_abstract_opaque_lazy trivialExt ⟨Ty.genericParam 0 0, ⟨1⟩⟩
    (Ty.opaqueArchetype 7) (by decide) (by decide)

/-- C5: getTypeWitness on a concrete reference returns the
dependent-member placeholder rooted at an error type — the value the
Invalid variant returns at the same arguments — whenever the record's
witness is absent or is itself an error type; both failure causes give
identical results. -/
theorem getTypeWitness_concrete_failure_merge (env : Externals)
    (con : ProtocolConformance) (conformingType : Ty) (assocType : AssocId)
    (hp : assocType.proto = con.proto)
    (hw : env.concreteTypeWitness con assocType = none ∨
      ∃ w, env.concreteTypeWitness con assocType = some w ∧
        w.isErrorType = true) :
    ConformanceRef.getTypeWitness env (ConformanceRef.concrete con)
        conformingType assocType
      = some (Ty.dependentMember (Ty.errorWith conformingType) assocType)
    ∧ ConformanceRef.getTypeWitness env (ConformanceRef.concrete con)
        conformingType assocType
      = ConformanceRef.getTypeWitness env ConformanceRef.invalid
          conformingType assocType := by
  have h1 : ConformanceRef.getTypeWitness env (ConformanceRef.concrete con)
      conformingType assocType
      = some (Ty.dependentMember (Ty.errorWith conformingType) assocType) := by
    rcases hw with h | ⟨w, hw1, hw2⟩
    · simp [ConformanceRef.getTypeWitness, ConformanceRef.isInvalid, hp, h]
    · simp [ConformanceRef.getTypeWitness, ConformanceRef.isInvalid, hp,
        hw1, hw2]
  exact ⟨h1, h1.trans rfl⟩

/-- C5 witness: an absent witness on a concrete record produces the
dependent-member-on-error placeholder. -/
theorem getTypeWitness_concrete_failure_merge_checked :
    ConformanceRef.getTypeWitness trivialExt
      (ConformanceRef.concrete
        (.mk (Ty.nominal 0) ⟨0⟩ ConfList.nil RootKind.otherRoot))
      (Ty.nominal 0) ⟨⟨0⟩, 0⟩
      = some (Ty.dependentMember (Ty.errorWith (Ty.nominal 0)) ⟨⟨0⟩, 0⟩) :=
  (getTypeWitness_concrete_failure_merge trivialExt
    (.mk (Ty.nominal 0) ⟨0⟩ ConfList.nil RootKind.otherRoot)
    (Ty.nominal 0) ⟨⟨0⟩, 0⟩ (by decide) (Or.inl (by decide))).1

/-- C6: getTypeWitness on an abstract reference returns the archetype's
nested type when the conforming type is an archetype (no lookup: the
result only mentions the archetype's own nested-type table), returns a
dependent member type when the conforming type satisfies the
type-parameter / type-variable / unresolved / placeholder precondition,
and fails the assertion (modelled as none) when the precondition is
violated. -/
theorem getTypeWitness_abstract_projection (env : Externals)
    (a : AbstractConformance) (conformingType : Ty) (assocType : AssocId)
    (hp : assocType.proto = a.proto) :
    (conformingType.isArchetypeTy = true →
      ConformanceRef.getTypeWitness env (ConformanceRef.abstract a)
          conformingType assocType
        = some (env.archNested conformingType.stripSugarHead assocType))
    ∧ (conformingType.isArchetypeTy = false →
      (conformingType.isTypeParameter
        || conformingType.isTypeVariableOrMember
        || conformingType.isUnresolvedTy
        || conformingType.isPlaceholderTy) = true →
      ConformanceRef.getTypeWitness env (ConformanceRef.abstract a)
          conformingType assocType
        = some (Ty.dependentMember conformingType assocType))
    ∧ (conformingType.isArchetypeTy = false →
      (conformingType.isTypeParameter
        || conformingType.isTypeVariableOrMember
        || conformingType.isUnresolvedTy
        || conformingType.isPlaceholderTy) = false →
      ConformanceRef.getTypeWitness env (ConformanceRef.abstract a)
          conformingType assocType = none) := by
  refine ⟨fun ha => ?_, fun ha hshape => ?_, fun ha hshape => ?_⟩
  · simp [ConformanceRef.getTypeWitness, ConformanceRef.isInvalid, hp, ha]
  · simp [ConformanceRef.getTypeWitness, ConformanceRef.isInvalid, hp,
      ha, hshape]
  · simp [ConformanceRef.getTypeWitness, ConformanceRef.isInvalid, hp,
      ha, hshape]

/-- C6 witness: the archetype case projects the nested type, and a
concrete nominal conforming type triggers the precondition failure. -/
theorem getTypeWitness_abstract_projection_checked :
    ConformanceRef.getTypeWitness trivialExt
      (ConformanceRef.abstract ⟨Ty.genericParam 0 0, ⟨2⟩⟩)
      (Ty.archetype 3) ⟨⟨2⟩, 1⟩
      = some (trivialExt.archNested (Ty.archetype 3) ⟨⟨2⟩, 1⟩)
    ∧ ConformanceRef.getTypeWitness trivialExt
      (ConformanceRef.abstract ⟨Ty.genericParam 0 0, ⟨2⟩⟩)
      (Ty.nominal 4) ⟨⟨2⟩, 1⟩ = none :=
  ⟨(getTypeWitness_abstract_projection trivialExt ⟨Ty.genericParam 0 0, ⟨2⟩⟩
      (Ty.archetype 3) ⟨⟨2⟩, 1⟩ (by decide)).1 (by decide),
   (getTypeWitness_abstract_projection trivialExt ⟨Ty.genericParam 0 0, ⟨2⟩⟩
      (Ty.nominal 4) ⟨⟨2⟩, 1⟩ (by decide)).2.2 (by decide) (by decide)⟩

/-- C7: canonicalization is idempotent — canonicalizing twice equals
canonicalizing once — and a reference satisfying isCanonical
canonicalizes to an equal reference. -/
theorem canonicalization_idempotent (c : ConformanceRef) :
    c.getCanonicalConformanceRef.getCanonicalConformanceRef
      = c.getCanonicalConformanceRef
    ∧ (c.isCanonicalRef = true → c.getCanonicalConformanceRef = c) :=
  ⟨ConformanceRef.canonRef_of_isCanonical _
      (ConformanceRef.canonRef_isCanonical c),
   fun h => ConformanceRef.canonRef_of_isCanonical c h⟩

/-- C7 witness: a canonical abstract reference is a fixed point of
canonicalization. -/
theorem canonicalization_idempotent_checked :
    ((ConformanceRef.abstract
        ⟨Ty.nominal 1, ⟨0⟩⟩).getCanonicalConformanceRef).getCanonicalConformanceRef
      = (ConformanceRef.abstract
          ⟨Ty.nominal 1, ⟨0⟩⟩).getCanonicalConformanceRef
    ∧ (ConformanceRef.abstract
        ⟨Ty.nominal 1, ⟨0⟩⟩).getCanonicalConformanceRef
      = ConformanceRef.abstract ⟨Ty.nominal 1, ⟨0⟩⟩ :=
  ⟨(canonicalization_idempotent
      (ConformanceRef.abstract ⟨Ty.nominal 1, ⟨0⟩⟩)).1,
   (canonicalization_idempotent
      (ConformanceRef.abstract ⟨Ty.nominal 1, ⟨0⟩⟩)).2 (by decide)⟩

/-- C8: hasMissingConformance holds exactly when
forEachMissingConformance visits at least one conformance (for every
visitor, the instrumented traversal records the same outcome and a
nonempty visit list precisely when hasMissingConformance is true); a
concrete conformance whose substitution map contains a conformance that
itself has a missing conformance reports true; abstract and invalid
references always report false. -/
theorem missing_conformance_closure (fn : BuiltinConf → Bool)
    (c : ConformanceRef) :
    (c.hasMissingConformance = true ↔ (c.missTrace fn).2 ≠ [])
    ∧ c.forEachMissingConformance fn = (c.missTrace fn).1
    ∧ (∀ t pr subs root d, ConfList.Memb d subs →
        d.hasMissingConformance = true →
        (ConformanceRef.concrete
          (.mk t pr subs root)).hasMissingConformance = true)
    ∧ (∀ a, (ConformanceRef.abstract a).hasMissingConformance = false)
    ∧ (∀ c' : ConformanceRef, c'.isInvalid = true →
        c'.hasMissingConformance = false) := by
  refine ⟨ConformanceRef.hasMissing_iff_visits fn c,
    ConformanceRef.missTrace_fst fn c, ?_, ?_, ?_⟩
  · intro t pr subs root d hm hd
    have hlist := ConfList.missList_of_memb (fun _ => true) subs d hm hd
    simp [ConformanceRef.hasMissingConformance,
      ConformanceRef.forEachMissingConformance, hlist]
  · intro a
    rfl
  · intro c' h
    cases c' with
    | invalid => rfl
    | abstract a => rfl
    | concrete con => simp [ConformanceRef.isInvalid] at h
    | pack p =>
      cases p with
      | mk t pr pats i =>
        simp [ConformanceRef.isInvalid, PackConformance.inv] at h
        simp [ConformanceRef.hasMissingConformance,
          ConformanceRef.forEachMissingConformance, h]

/-- C8 witness: a concrete conformance holding a missing-builtin-rooted
conformance in its substitution map reports a missing conformance, and
the traversal visits it. -/
theorem missing_conformance_closure_checked :
    (ConformanceRef.concrete
      (.mk (Ty.nominal 1) ⟨1⟩
        (ConfList.cons
          (ConformanceRef.concrete
            (.mk (Ty.nominal 0) ⟨0⟩ ConfList.nil
              (RootKind.builtin ⟨0, true⟩)))
          ConfList.nil)
        RootKind.otherRoot)).hasMissingConformance = true
    ∧ ((ConformanceRef.concrete
      (.mk (Ty.nominal 1) ⟨1⟩
        (ConfList.cons
          (ConformanceRef.concrete
            (.mk (Ty.nominal 0) ⟨0⟩ ConfList.nil
              (RootKind.builtin ⟨0, true⟩)))
          ConfList.nil)
        RootKind.otherRoot)).missTrace (fun _ => true)).2 ≠ [] := by
  have h := missing_conformance_closure (fun _ => true)
    (ConformanceRef.concrete
      (.mk (Ty.nominal 1) ⟨1⟩
        (ConfList.cons
          (ConformanceRef.concrete
            (.mk (Ty.nominal 0) ⟨0⟩ ConfList.nil
              (RootKind.builtin ⟨0, true⟩)))
          ConfList.nil)
        RootKind.otherRoot))
  have hparent := h.2.2.1 (Ty.nominal 1) ⟨1⟩
    (ConfList.cons
      (ConformanceRef.concrete
        (.mk (Ty.nominal 0) ⟨0⟩ ConfList.nil
          (RootKind.builtin ⟨0, true⟩)))
      ConfList.nil)
    RootKind.otherRoot
    (ConformanceRef.concrete
      (.mk (Ty.nominal 0) ⟨0⟩ ConfList.nil (RootKind.builtin ⟨0, true⟩)))
    (Or.inl rfl) (by decide)
  exact ⟨hparent, h.1.mp hparent⟩

/-- C9: isInvalid holds for the empty sentinel reference and for every
pack reference whose pack conformance is itself invalid, so isInvalid and
isPack can hold simultaneously and the invalid state is not characterized
by the absence of a payload. -/
theorem isInvalid_pack_payload (p : PackConformance) (h : p.inv = true) :
    (ConformanceRef.pack p).isInvalid = true
    ∧ (ConformanceRef.pack p).isPack = true
    ∧ ConformanceRef.invalid.isInvalid = true
    ∧ ConformanceRef.pack p ≠ ConformanceRef.invalid := by
  refine ⟨?_, rfl, rfl, fun hc => ConformanceRef.noConfusion hc⟩
  simp [ConformanceRef.isInvalid, h]

/-- C9 witness: a pack reference with an invalid pack conformance is
simultaneously invalid and a pack. -/
theorem isInvalid_pack_payload_checked :
    (ConformanceRef.pack
      (.mk Ty.unresolved ⟨0⟩ ConfList.nil true)).isInvalid = true
    ∧ (ConformanceRef.pack
      (.mk Ty.unresolved ⟨0⟩ ConfList.nil true)).isPack = true := by
  have h := isInvalid_pack_payload
    (.mk Ty.unresolved ⟨0⟩ ConfList.nil true) (by decide)
  exact ⟨h.1, h.2.1⟩

/-- C10: getType on a reference for which isInvalid holds returns the
null type (none), not any type value — in particular not an error type or
placeholder — so callers must null-check the result. -/
theorem getType_invalid_null (c : ConformanceRef)
    (h : c.isInvalid = true) :
    c.getType = none ∧ ∀ t : Ty, c.getType ≠ some t := by
  have h1 : c.getType = none := by
    simp [ConformanceRef.getType, h]
  exact ⟨h1, fun t ht => by simp [h1] at ht⟩

/-- C10 witness: the empty sentinel reference has no conforming type. -/
theorem getType_invalid_null_checked :
    ConformanceRef.invalid.getType = none :=
  (getType_invalid_null ConformanceRef.invalid rfl).1

end SwiftConf
